import Mathlib

/-!
Shallow embedding of the LingoPal backend pieces relevant to the progress
reconciliation endpoint `practiceRouter.post("/progress")` in
`src/Routes/practice.js`, and the chat-completion endpoint
`groqRouter.post("/chat-completion")`.

The record store (Supabase) is modelled as an explicit list of rows plus a
fresh-id counter; the environment carries the wall-clock timestamp and
fault flags for the three outbound calls (insert, update, rpc).  The handler
is a pure function from (environment, request event, store) to a response,
the new store, the list of store operations issued, and the log output.
-/

namespace LingoPal

/-- Request body of POST /api/practice/progress.  Fields that the JavaScript
handler may receive as `undefined` are modelled as `Option`; in particular
`progress_practice_id` compares against the sentinel `0` with strict
inequality (`!==`), so an absent id takes the update branch. -/
structure Event where
  progress_practice_id : Option Int
  user_id : Option Int
  practice_id : Option Int
  course_id : Option Int
  progress_poin : Int
  is_active : Bool
  is_passed : Bool
  deriving DecidableEq

/-- One row of the `t_user_practice_progress` table. -/
structure Row where
  progress_practice_id : Int
  user_id : Option Int
  practice_id : Option Int
  progress_poin : Int
  is_active : Bool
  is_passed : Bool
  updated_at : Nat
  deriving DecidableEq

/-- Projection returned by the handler's `.select("progress_practice_id,
user_id, practice_id, progress_poin, is_active, is_passed")`.  Note that
`updated_at` is not part of the projection. -/
structure RowView where
  progress_practice_id : Int
  user_id : Option Int
  practice_id : Option Int
  progress_poin : Int
  is_active : Bool
  is_passed : Bool
  deriving DecidableEq

def Row.view (r : Row) : RowView :=
  ⟨r.progress_practice_id, r.user_id, r.practice_id, r.progress_poin,
   r.is_active, r.is_passed⟩

/-- The record store: rows of `t_user_practice_progress` plus the next
identity value the store will assign on insert. -/
structure DB where
  rows : List Row
  nextId : Int
  deriving DecidableEq

/-- Environment of one request: wall-clock timestamp used for `updated_at`,
and fault flags for the store insert, the store update, and the
`update_user_course_progress_poin` rpc. -/
structure Env where
  now : Nat
  insertErr : Bool
  updateErr : Bool
  rpcErr : Bool
  deriving DecidableEq

/-- Name of the aggregate-recompute procedure invoked via `db.rpc`. -/
def rpcName : String := "update_user_course_progress_poin"

/-- A store operation issued by the handler, in issue order. -/
inductive StoreOp where
  | update (recordId userId : Option Int) (poin : Int) (active passed : Bool)
      (practiceId : Option Int) (updatedAt : Nat)
  | insert (userId practiceId : Option Int) (poin : Int) (active passed : Bool)
      (updatedAt : Nat)
  | rpc (name : String) (userId courseId : Option Int) (failed : Bool)
  deriving DecidableEq

def StoreOp.isWrite : StoreOp → Bool
  | .rpc _ _ _ _ => false
  | _ => true

def StoreOp.isInsert : StoreOp → Bool
  | .insert _ _ _ _ _ _ => true
  | _ => false

def StoreOp.isRpc : StoreOp → Bool
  | .rpc _ _ _ _ => true
  | _ => false

/-- HTTP response: `ok body` is `res.status(200).json({status:200, body})`,
`err s m` is `res.status(s).json({status:s, error:m})`. -/
inductive Resp where
  | ok (body : List RowView)
  | err (status : Nat) (error : String)
  deriving DecidableEq

/-- Result of one handler run: response, store afterwards, store operations
issued (in order), and log output. -/
structure Outcome where
  resp : Resp
  db : DB
  ops : List StoreOp
  log : List String
  deriving DecidableEq

/-- Predicate of the update query:
`.eq("progress_practice_id", progress_practice_id).eq("user_id", user_id)`. -/
def matchRow (e : Event) (r : Row) : Bool :=
  (some r.progress_practice_id == e.progress_practice_id) &&
    (r.user_id == e.user_id)

/-- Effect of the update on a matched row: the handler's `.update({...})`
payload overwrites `progress_poin`, `is_active`, `is_passed`, `practice_id`
and `updated_at`. -/
def updateRow (e : Event) (ts : Nat) (r : Row) : Row :=
  { r with
    progress_poin := e.progress_poin
    is_active := e.is_active
    is_passed := e.is_passed
    practice_id := e.practice_id
    updated_at := ts }

def updMsg : String := "Failed to update the record"

def insMsg : String := "Failed to insert new record"

/-- The handler `practiceRouter.post("/progress")` of
`src/Routes/practice.js`, lines 152-235, translated clause by clause:
branch on `progress_practice_id !== 0`; update path filters by record id
and user id, writes the payload, and selects the updated rows; insert path
appends a fresh row; either error returns 500 with the corresponding
message; on success the rpc `update_user_course_progress_poin` is awaited
with its result discarded, and the selected rows are returned with 200.
The handler writes nothing to the log. -/
def postProgress (env : Env) (e : Event) (db : DB) : Outcome :=
  if e.progress_practice_id ≠ some 0 then
    let op := StoreOp.update e.progress_practice_id e.user_id e.progress_poin
      e.is_active e.is_passed e.practice_id env.now
    if env.updateErr then
      ⟨Resp.err 500 updMsg, db, [op], []⟩
    else
      let newRows := db.rows.map fun r =>
        if matchRow e r then updateRow e env.now r else r
      let returned := (newRows.filter (matchRow e)).map Row.view
      ⟨Resp.ok returned, ⟨newRows, db.nextId⟩,
        [op, StoreOp.rpc rpcName e.user_id e.course_id env.rpcErr], []⟩
  else
    let newRow : Row := ⟨db.nextId, e.user_id, e.practice_id, e.progress_poin,
      e.is_active, e.is_passed, env.now⟩
    let op := StoreOp.insert e.user_id e.practice_id e.progress_poin
      e.is_active e.is_passed env.now
    if env.insertErr then
      ⟨Resp.err 500 insMsg, db, [op], []⟩
    else
      ⟨Resp.ok [newRow.view], ⟨db.rows ++ [newRow], db.nextId + 1⟩,
        [op, StoreOp.rpc rpcName e.user_id e.course_id env.rpcErr], []⟩

/-- Rows agreeing with a given (user, practice) pair. -/
def hasKey (u i : Int) (r : Row) : Bool :=
  (r.user_id == some u) && (r.practice_id == some i)

/-- Number of rows of the store for a given (user, practice) pair. -/
def keyCount (u i : Int) (rows : List Row) : Nat :=
  (rows.filter (hasKey u i)).length

/-- Modelled from the spec: two rows collide on the store's uniqueness
constraint when both key columns are non-null and equal ("at most one
`ProgressRecord` exists per (`userId`, `itemId`) pair ... the store must
guarantee it, e.g. via a unique constraint").  The constraint itself lives
in the external database schema, which is not part of the repository
sources. -/
def sameKey (a b : Row) : Bool :=
  a.user_id.isSome && a.practice_id.isSome &&
    (a.user_id == b.user_id) && (a.practice_id == b.practice_id)

/-- Modelled from the spec: the store satisfies the uniqueness constraint
when no two rows collide on (user_id, practice_id). -/
def uniqOK : List Row → Bool
  | [] => true
  | r :: rs => rs.all (fun s => !(sameKey r s)) && uniqOK rs

/-- Modelled from the spec: the same handler as `postProgress`, but run
against a store that enforces the uniqueness constraint on
(user_id, practice_id) — an insert that collides with an existing row, or
an update whose result would violate the constraint, fails and leaves the
store unchanged, surfacing as the corresponding store error. -/
def postProgressU (env : Env) (e : Event) (db : DB) : Outcome :=
  if e.progress_practice_id ≠ some 0 then
    let op := StoreOp.update e.progress_practice_id e.user_id e.progress_poin
      e.is_active e.is_passed e.practice_id env.now
    if env.updateErr then
      ⟨Resp.err 500 updMsg, db, [op], []⟩
    else
      let newRows := db.rows.map fun r =>
        if matchRow e r then updateRow e env.now r else r
      if uniqOK newRows then
        let returned := (newRows.filter (matchRow e)).map Row.view
        ⟨Resp.ok returned, ⟨newRows, db.nextId⟩,
          [op, StoreOp.rpc rpcName e.user_id e.course_id env.rpcErr], []⟩
      else
        ⟨Resp.err 500 updMsg, db, [op], []⟩
  else
    let newRow : Row := ⟨db.nextId, e.user_id, e.practice_id, e.progress_poin,
      e.is_active, e.is_passed, env.now⟩
    let op := StoreOp.insert e.user_id e.practice_id e.progress_poin
      e.is_active e.is_passed env.now
    if env.insertErr || db.rows.any (fun r => sameKey r newRow) then
      ⟨Resp.err 500 insMsg, db, [op], []⟩
    else
      ⟨Resp.ok [newRow.view], ⟨db.rows ++ [newRow], db.nextId + 1⟩,
        [op, StoreOp.rpc rpcName e.user_id e.course_id env.rpcErr], []⟩

/-- Folding a sequence of reconcile calls over the uniqueness-enforcing
store. -/
def runU (calls : List (Env × Event)) (db : DB) : DB :=
  calls.foldl (fun d p => (postProgressU p.1 p.2 d).db) db

end LingoPal

namespace LingoPal.Chat

/-- One chat message as sent to the chat-completion vendor. -/
structure Msg where
  role : String
  content : String
  deriving DecidableEq

/-- Request body of POST /chat-completion: `conversation` is either an
array of messages or a single message (`Array.isArray(conversation) ?
conversation : [conversation]`). -/
inductive ChatBody where
  | arr (l : List Msg)
  | single (m : Msg)
  deriving DecidableEq

def ChatBody.toMessages : ChatBody → List Msg
  | .arr l => l
  | .single m => [m]

/-- The four fixed system prompts `getGroqChatCompletion` prepends to the
conversation. -/
def systemPrompts : List Msg :=
  [⟨"system", "You\x27re english assistant that help users to learn english using conversation. So, your first response to user is to start conversation directly about daily activity. Your name is Lingo. "⟩,
   ⟨"system", "Lingo, as english assistant you need to give your user warm welcoming as possible if they start to interact with you"⟩,
   ⟨"system", "Lingo, as english assistant you dont need to response any unrelated conversation beside help users to improve their english and you can really reject to answer them if they ask unrelated question like solving/giving them snippet code."⟩,
   ⟨"system", "Lingo, as english assistant you can to rate users english skill by conversation your had from scale 1-100. Give disclamer that your judgement is not really describe user\x27s real skill. Finally say thank you! you can say it if user say \x27Stop Conversation\x27 "⟩]

/-- Message list `getGroqChatCompletion(conversation)` sends to the model:
the system prompts followed by the conversation it is given. -/
def completionInput (conversation : List Msg) : List Msg :=
  systemPrompts ++ conversation

/-- One run of `groqRouter.post("/chat-completion")` over the module-level
mutable `conversationHistory`: the request's messages are appended to the
history (`conversationHistory = [...conversationHistory, ...messages]`) and
the whole accumulated history is sent to the model.  Returns the new
history and the message list sent. -/
def chatStep (hist : List Msg) (body : ChatBody) : List Msg × List Msg :=
  let messages := body.toMessages
  let newHist := hist ++ messages
  (newHist, completionInput newHist)

/-- Running a sequence of requests against the shared module-level history:
returns the final history and the list of model inputs, one per request. -/
def runChat : List Msg → List ChatBody → List Msg × List (List Msg)
  | hist, [] => (hist, [])
  | hist, b :: bs =>
    let s := chatStep hist b
    let rest := runChat s.1 bs
    (rest.1, s.2 :: rest.2)

end LingoPal.Chat

namespace LingoPal

lemma matchRow_updateRow (e : Event) (ts : Nat) (r : Row) :
    matchRow e (updateRow e ts r) = matchRow e r := rfl

lemma matchRow_false_of_user_ne (e : Event) (r : Row)
    (h : r.user_id ≠ e.user_id) : matchRow e r = false := by
  simp [matchRow, h]

/-- Claim C1: the handler issues a store insert if and only if the supplied
record id is the sentinel `0`; the insert carries the supplied user, item,
point, activity and completion values with the fresh timestamp and, on
success, the response returns the newly assigned record id; every other
record id (including an absent one) issues an update instead. -/
theorem reconcile_create_iff_sentinel (env : Env) (e : Event) (db : DB) :
    ((∃ op ∈ (postProgress env e db).ops, op.isInsert = true) ↔
      e.progress_practice_id = some 0)
    ∧ (e.progress_practice_id = some 0 →
        StoreOp.insert e.user_id e.practice_id e.progress_poin e.is_active
            e.is_passed env.now ∈ (postProgress env e db).ops
        ∧ (env.insertErr = false →
            (postProgress env e db).resp =
              Resp.ok [⟨db.nextId, e.user_id, e.practice_id, e.progress_poin,
                e.is_active, e.is_passed⟩]
            ∧ (⟨db.nextId, e.user_id, e.practice_id, e.progress_poin,
                e.is_active, e.is_passed, env.now⟩ : Row) ∈
                (postProgress env e db).db.rows))
    ∧ (e.progress_practice_id ≠ some 0 →
        StoreOp.update e.progress_practice_id e.user_id e.progress_poin
            e.is_active e.is_passed e.practice_id env.now ∈
          (postProgress env e db).ops) := by
  by_cases h : e.progress_practice_id = some 0 <;>
    by_cases hi : env.insertErr <;>
      by_cases hu : env.updateErr <;>
        simp [postProgress, h, hi, hu, StoreOp.isInsert, Row.view]

/-- Witness for C1 at concrete inputs: the sentinel id `some 0` creates and
returns the fresh record, while an absent id issues an update. -/
theorem reconcile_create_iff_sentinel_witness :
    ((postProgress ⟨5, false, false, false⟩
        ⟨some 0, some 7, some 3, some 1, 10, true, false⟩ ⟨[], 1⟩).resp =
      Resp.ok [⟨1, some 7, some 3, 10, true, false⟩])
    ∧ StoreOp.update none (some 7) 10 true false (some 3) 5 ∈
        (postProgress ⟨5, false, false, false⟩
          ⟨none, some 7, some 3, some 1, 10, true, false⟩ ⟨[], 1⟩).ops :=
  ⟨(((reconcile_create_iff_sentinel ⟨5, false, false, false⟩
      ⟨some 0, some 7, some 3, some 1, 10, true, false⟩ ⟨[], 1⟩).2.1 rfl).2
        rfl).1,
   (reconcile_create_iff_sentinel ⟨5, false, false, false⟩
      ⟨none, some 7, some 3, some 1, 10, true, false⟩ ⟨[], 1⟩).2.2
        (by decide)⟩

/-- Claim C2: the update path filters by both record id and user id, so a
row whose user differs from the supplied one is never changed, and a call
whose record id only matches rows of other users modifies zero records. -/
theorem update_filtered_by_user (env : Env) (e : Event) (db : DB)
    (h : e.progress_practice_id ≠ some 0) :
    (∀ i : Nat, (∀ r, db.rows[i]? = some r → r.user_id ≠ e.user_id) →
      (postProgress env e db).db.rows[i]? = db.rows[i]?)
    ∧ ((∀ r ∈ db.rows, some r.progress_practice_id = e.progress_practice_id →
          r.user_id ≠ e.user_id) →
        (postProgress env e db).db = db) := by
  by_cases hu : env.updateErr
  · simp [postProgress, h, hu]
  · constructor
    · intro i hi
      have hgoal : (postProgress env e db).db.rows =
          db.rows.map fun r => if matchRow e r then updateRow e env.now r else r := by
        simp [postProgress, h, hu]
      rw [hgoal, List.getElem?_map]
      cases hr : db.rows[i]? with
      | none => rfl
      | some r =>
        simp [matchRow_false_of_user_ne e r (hi r hr)]
    · intro hall
      have hmap : ∀ r ∈ db.rows,
          (if matchRow e r then updateRow e env.now r else r) = r := by
        intro r hr
        by_cases hid : some r.progress_practice_id = e.progress_practice_id
        · simp [matchRow_false_of_user_ne e r (hall r hr hid)]
        · simp [matchRow, hid]
      simp [postProgress, h, hu, List.map_congr_left hmap]

/-- Witness for C2 at a concrete input: an update naming record 55 for user
8 leaves user 7's record 55 untouched. -/
theorem update_filtered_by_user_witness :
    (postProgress ⟨5, false, false, false⟩
        ⟨some 55, some 8, some 3, some 1, 99, true, true⟩
        ⟨[⟨55, some 7, some 3, 10, true, false, 0⟩], 56⟩).db =
      ⟨[⟨55, some 7, some 3, 10, true, false, 0⟩], 56⟩ :=
  (update_filtered_by_user ⟨5, false, false, false⟩
      ⟨some 55, some 8, some 3, some 1, 99, true, true⟩
      ⟨[⟨55, some 7, some 3, 10, true, false, 0⟩], 56⟩ (by decide)).2
    (by decide)

/-- Counterexample to claim C3: on a store with no matching row, the update
path does not report any not-found condition — it returns a 200 success
with an empty record list, and the recompute rpc is still invoked. -/
theorem zero_row_update_not_found_cex :
    (postProgress ⟨0, false, false, false⟩
        ⟨some 999, some 7, some 3, some 1, 10, true, false⟩ ⟨[], 1⟩).resp =
      Resp.ok []
    ∧ StoreOp.rpc rpcName (some 7) (some 1) false ∈
        (postProgress ⟨0, false, false, false⟩
          ⟨some 999, some 7, some 3, some 1, 10, true, false⟩ ⟨[], 1⟩).ops := by
  constructor
  · rfl
  · simp [postProgress]

/-- Claim C3 as amended: an update-path call that matches zero rows returns
a 200 success response with an empty record list, and the
aggregate-recompute procedure is still invoked. -/
theorem zero_row_update_ok_and_recompute (env : Env) (e : Event) (db : DB)
    (h : e.progress_practice_id ≠ some 0) (hu : env.updateErr = false)
    (hnone : ∀ r ∈ db.rows, matchRow e r = false) :
    (postProgress env e db).resp = Resp.ok []
    ∧ StoreOp.rpc rpcName e.user_id e.course_id env.rpcErr ∈
        (postProgress env e db).ops := by
  have hmap : ∀ r ∈ db.rows,
      (if matchRow e r then updateRow e env.now r else r) = r := by
    intro r hr; simp [hnone r hr]
  have hfil : (db.rows.map fun r =>
      if matchRow e r then updateRow e env.now r else r).filter (matchRow e)
        = [] := by
    rw [List.map_congr_left hmap, List.map_id']
    exact List.filter_eq_nil_iff.mpr (by intro r hr; simp [hnone r hr])
  simp [postProgress, h, hu, hfil]

/-- Witness for the amended C3 at a concrete input: stale record id 999 on
an empty store yields a 200 with empty body and an rpc invocation. -/
theorem zero_row_update_ok_and_recompute_witness :
    (postProgress ⟨4, false, false, false⟩
        ⟨some 999, some 7, some 3, some 1, 10, true, false⟩ ⟨[], 1⟩).resp =
      Resp.ok []
    ∧ StoreOp.rpc rpcName (some 7) (some 1) false ∈
        (postProgress ⟨4, false, false, false⟩
          ⟨some 999, some 7, some 3, some 1, 10, true, false⟩ ⟨[], 1⟩).ops :=
  zero_row_update_ok_and_recompute ⟨4, false, false, false⟩
    ⟨some 999, some 7, some 3, some 1, 10, true, false⟩ ⟨[], 1⟩
    (by decide) rfl (by intro r hr; simp at hr)

/-- Claim C4: whenever the store write succeeds, the handler issues exactly
the write followed by one recompute rpc carrying the supplied user id — the
rpc is invoked exactly once, with the event's user id, after the write. -/
theorem recompute_once_after_write (env : Env) (e : Event) (db : DB)
    (hins : e.progress_practice_id = some 0 → env.insertErr = false)
    (hupd : e.progress_practice_id ≠ some 0 → env.updateErr = false) :
    ∃ w : StoreOp, w.isWrite = true ∧
      (postProgress env e db).ops =
        [w, StoreOp.rpc rpcName e.user_id e.course_id env.rpcErr] := by
  by_cases h : e.progress_practice_id = some 0
  · exact ⟨StoreOp.insert e.user_id e.practice_id e.progress_poin e.is_active
      e.is_passed env.now, rfl, by simp [postProgress, h, hins h]⟩
  · exact ⟨StoreOp.update e.progress_practice_id e.user_id e.progress_poin
      e.is_active e.is_passed e.practice_id env.now, rfl,
      by simp [postProgress, h, hupd h]⟩

/-- Witness for C4 at a concrete input. -/
theorem recompute_once_after_write_witness :
    ∃ w : StoreOp, w.isWrite = true ∧
      (postProgress ⟨5, false, false, false⟩
          ⟨some 0, some 7, some 3, some 1, 10, true, false⟩ ⟨[], 1⟩).ops =
        [w, StoreOp.rpc rpcName (some 7) (some 1) false] :=
  recompute_once_after_write ⟨5, false, false, false⟩
    ⟨some 0, some 7, some 3, some 1, 10, true, false⟩ ⟨[], 1⟩
    (fun _ => rfl) (fun hc => absurd rfl hc)

/-- Counterexample to claim C5: when the recompute rpc fails after a
successful insert, the handler's log output is empty — the failure is not
logged (it is silently discarded), even though the response is a success
carrying the written record. -/
theorem recompute_failure_not_logged_cex :
    (postProgress ⟨7, false, false, true⟩
        ⟨some 0, some 7, some 3, some 1, 10, true, false⟩ ⟨[], 1⟩).log = []
    ∧ StoreOp.rpc rpcName (some 7) (some 1) true ∈
        (postProgress ⟨7, false, false, true⟩
          ⟨some 0, some 7, some 3, some 1, 10, true, false⟩ ⟨[], 1⟩).ops
    ∧ (postProgress ⟨7, false, false, true⟩
        ⟨some 0, some 7, some 3, some 1, 10, true, false⟩ ⟨[], 1⟩).resp =
      Resp.ok [⟨1, some 7, some 3, 10, true, false⟩] := by
  refine ⟨rfl, ?_, rfl⟩
  simp [postProgress]

/-- Claim C5 as amended: when the store write succeeds but the recompute
rpc fails, the handler still returns the written record as a 200 success;
the failure is silently discarded (nothing is logged), it is not propagated
to the caller, and the written store state is exactly what it would have
been had the rpc succeeded (no rollback). -/
theorem recompute_failure_ignored (env : Env) (e : Event) (db : DB)
    (hrpc : env.rpcErr = true)
    (hins : e.progress_practice_id = some 0 → env.insertErr = false)
    (hupd : e.progress_practice_id ≠ some 0 → env.updateErr = false) :
    (∃ body, (postProgress env e db).resp = Resp.ok body)
    ∧ (postProgress env e db).log = []
    ∧ StoreOp.rpc rpcName e.user_id e.course_id true ∈
        (postProgress env e db).ops
    ∧ (postProgress env e db).db =
        (postProgress ⟨env.now, env.insertErr, env.updateErr, false⟩ e db).db
    ∧ (postProgress env e db).resp =
        (postProgress ⟨env.now, env.insertErr, env.updateErr, false⟩ e db).resp := by
  obtain ⟨now, ie, ue, re⟩ := env
  simp only at hrpc
  subst hrpc
  by_cases h : e.progress_practice_id = some 0
  · have hie := hins h
    simp only at hie
    subst hie
    simp [postProgress, h]
  · have hue := hupd h
    simp only at hue
    subst hue
    simp [postProgress, h]

/-- Witness for the amended C5 at a concrete input. -/
theorem recompute_failure_ignored_witness :
    (∃ body, (postProgress ⟨7, false, false, true⟩
        ⟨some 0, some 7, some 3, some 1, 10, true, false⟩ ⟨[], 1⟩).resp =
      Resp.ok body)
    ∧ (postProgress ⟨7, false, false, true⟩
        ⟨some 0, some 7, some 3, some 1, 10, true, false⟩ ⟨[], 1⟩).log = [] :=
  ⟨(recompute_failure_ignored ⟨7, false, false, true⟩
      ⟨some 0, some 7, some 3, some 1, 10, true, false⟩ ⟨[], 1⟩ rfl
      (fun _ => rfl) (fun hc => absurd rfl hc)).1,
   (recompute_failure_ignored ⟨7, false, false, true⟩
      ⟨some 0, some 7, some 3, some 1, 10, true, false⟩ ⟨[], 1⟩ rfl
      (fun _ => rfl) (fun hc => absurd rfl hc)).2.1⟩

/-- Counterexample to claim C6: an event with a missing (undefined) user id
is not rejected before any store call — the handler issues a store insert
carrying the absent user id and returns a 200 success. -/
theorem missing_user_reaches_store_cex :
    StoreOp.insert none (some 3) 10 true false 0 ∈
      (postProgress ⟨0, false, false, false⟩
        ⟨some 0, none, some 3, some 1, 10, true, false⟩ ⟨[], 1⟩).ops
    ∧ (postProgress ⟨0, false, false, false⟩
        ⟨some 0, none, some 3, some 1, 10, true, false⟩ ⟨[], 1⟩).resp =
      Resp.ok [⟨1, none, some 3, 10, true, false⟩] := by
  refine ⟨?_, rfl⟩
  simp [postProgress]

/-- Claim C6 as amended: the handler performs no validation of user id or
item id; every event — including one with a missing user id or item id —
issues a store write as its first operation, and no client-error (4xx)
response is ever produced: every error response carries status 500. -/
theorem no_validation_store_call_issued (env : Env) (e : Event) (db : DB)
    (_hmiss : e.user_id = none ∨ e.practice_id = none) :
    (∃ w, (postProgress env e db).ops.head? = some w ∧ w.isWrite = true)
    ∧ (∀ s msg, (postProgress env e db).resp = Resp.err s msg → s = 500) := by
  by_cases h : e.progress_practice_id = some 0 <;>
    by_cases hi : env.insertErr <;>
      by_cases hu : env.updateErr <;>
        simp [postProgress, h, hi, hu, StoreOp.isWrite]

/-- Witness for the amended C6 at a concrete input with a missing user id. -/
theorem no_validation_store_call_issued_witness :
    ∃ w, (postProgress ⟨0, false, false, false⟩
        ⟨some 0, none, some 3, some 1, 10, true, false⟩ ⟨[], 1⟩).ops.head? =
      some w ∧ w.isWrite = true :=
  (no_validation_store_call_issued ⟨0, false, false, false⟩
    ⟨some 0, none, some 3, some 1, 10, true, false⟩ ⟨[], 1⟩ (Or.inl rfl)).1

lemma hasKey_sameKey (u i : Int) (a b : Row) (ha : hasKey u i a = true)
    (hb : hasKey u i b = true) : sameKey a b = true := by
  simp only [hasKey, Bool.and_eq_true, beq_iff_eq] at ha hb
  simp [sameKey, ha.1, ha.2, hb.1, hb.2]

lemma keyCount_le_one_of_uniqOK (u i : Int) :
    ∀ rows : List Row, uniqOK rows = true → keyCount u i rows ≤ 1 := by
  intro rows
  induction rows with
  | nil => intro _; simp [keyCount]
  | cons r rs ih =>
    intro h
    rw [uniqOK, Bool.and_eq_true] at h
    obtain ⟨hall, hrs⟩ := h
    by_cases hr : hasKey u i r = true
    · have hzero : rs.filter (hasKey u i) = [] := by
        apply List.filter_eq_nil_iff.mpr
        intro s hs hks
        have hsk := hasKey_sameKey u i r s hr hks
        have h2 := (List.all_eq_true.mp hall) s hs
        simp [hsk] at h2
      simp [keyCount, List.filter_cons, hr, hzero]
    · have hr2 : hasKey u i r = false := by
        cases hx : hasKey u i r
        · rfl
        · exact absurd hx hr
      have := ih hrs
      simpa [keyCount, List.filter_cons, hr2] using this

lemma keyCount_append (u i : Int) (a b : List Row) :
    keyCount u i (a ++ b) = keyCount u i a + keyCount u i b := by
  simp [keyCount, List.filter_append]

lemma uniqOK_append_singleton (x : Row) :
    ∀ l : List Row, uniqOK (l ++ [x]) =
      (uniqOK l && l.all fun r => !(sameKey r x)) := by
  intro l
  induction l with
  | nil => simp [uniqOK]
  | cons r t ih =>
    show (((t ++ [x]).all fun s => !(sameKey r s)) && uniqOK (t ++ [x])) =
      (((t.all fun s => !(sameKey r s)) && uniqOK t) &&
        ((!(sameKey r x)) && (t.all fun s => !(sameKey s x))))
    rw [List.all_append, ih]
    rw [show ([x].all fun s => !(sameKey r s)) = ((!(sameKey r x)) && true)
      from rfl]
    cases t.all fun s => !(sameKey r s) <;> cases sameKey r x <;>
      cases uniqOK t <;> cases t.all fun s => !(sameKey s x) <;> rfl

lemma filter_length_le_map (g : Row → Row) (p : Row → Bool)
    (hmono : ∀ r, p r = true → p (g r) = true) :
    ∀ l : List Row, (l.filter p).length ≤ ((l.map g).filter p).length := by
  intro l
  induction l with
  | nil => simp
  | cons r t ih =>
    simp only [List.map_cons, List.filter_cons]
    by_cases hr : p r = true
    · rw [if_pos hr, if_pos (hmono r hr)]
      simp only [List.length_cons]
      exact Nat.succ_le_succ ih
    · rw [if_neg hr]
      by_cases hg : p (g r) = true
      · rw [if_pos hg]
        simp only [List.length_cons]
        exact Nat.le_succ_of_le ih
      · rw [if_neg hg]
        exact ih

lemma first_insert_count (env : Env) (e : Event) (db : DB) (u i : Int)
    (hid : e.progress_practice_id = some 0) (hu : e.user_id = some u)
    (hi : e.practice_id = some i) (hok : env.insertErr = false)
    (huniq : uniqOK db.rows = true) :
    keyCount u i (postProgressU env e db).db.rows = 1
    ∧ uniqOK (postProgressU env e db).db.rows = true := by
  have hkeyNew : hasKey u i (⟨db.nextId, e.user_id, e.practice_id,
      e.progress_poin, e.is_active, e.is_passed, env.now⟩ : Row) = true := by
    simp [hasKey, hu, hi]
  by_cases hconf : db.rows.any (fun r => sameKey r ⟨db.nextId, e.user_id,
      e.practice_id, e.progress_poin, e.is_active, e.is_passed, env.now⟩) = true
  · have hdb : (postProgressU env e db).db = db := by
      simp [postProgressU, hid, hconf]
    obtain ⟨r, hrmem, hrs⟩ := List.any_eq_true.mp hconf
    have hrkey : hasKey u i r = true := by
      simp only [sameKey, Bool.and_eq_true, beq_iff_eq] at hrs
      simp [hasKey, hrs.1.2, hrs.2, hu, hi]
    have hge : 1 ≤ keyCount u i db.rows := by
      have hmem : r ∈ db.rows.filter (hasKey u i) :=
        List.mem_filter.mpr ⟨hrmem, hrkey⟩
      exact List.length_pos_of_mem hmem
    have hle := keyCount_le_one_of_uniqOK u i db.rows huniq
    rw [hdb]
    exact ⟨le_antisymm hle hge, huniq⟩
  · have hconf2 : db.rows.any (fun r => sameKey r ⟨db.nextId, e.user_id,
        e.practice_id, e.progress_poin, e.is_active, e.is_passed, env.now⟩) =
          false := by
      cases hx : db.rows.any (fun r => sameKey r ⟨db.nextId, e.user_id,
        e.practice_id, e.progress_poin, e.is_active, e.is_passed, env.now⟩)
      · rfl
      · exact absurd hx hconf
    have hpt : ∀ r ∈ db.rows, sameKey r ⟨db.nextId, e.user_id, e.practice_id,
        e.progress_poin, e.is_active, e.is_passed, env.now⟩ = false := by
      intro r hr
      cases hsk : sameKey r ⟨db.nextId, e.user_id, e.practice_id,
        e.progress_poin, e.is_active, e.is_passed, env.now⟩
      · rfl
      · have h2 : (db.rows.any fun s => sameKey s ⟨db.nextId, e.user_id,
            e.practice_id, e.progress_poin, e.is_active, e.is_passed,
            env.now⟩) = true := List.any_eq_true.mpr ⟨r, hr, hsk⟩
        rw [hconf2] at h2
        exact absurd h2 (by decide)
    have hdb : (postProgressU env e db).db.rows =
        db.rows ++ [⟨db.nextId, e.user_id, e.practice_id, e.progress_poin,
          e.is_active, e.is_passed, env.now⟩] := by
      simp [postProgressU, hid, hok, hconf2]
    have hzero : keyCount u i db.rows = 0 := by
      rw [keyCount, List.length_eq_zero]
      apply List.filter_eq_nil_iff.mpr
      intro r hr hk
      have hsk := hasKey_sameKey u i r _ hk hkeyNew
      rw [hpt r hr] at hsk
      exact absurd hsk (by decide)
    constructor
    · rw [hdb, keyCount_append, hzero]
      simp [keyCount, hkeyNew]
    · rw [hdb, uniqOK_append_singleton, Bool.and_eq_true]
      refine ⟨huniq, ?_⟩
      rw [List.all_eq_true]
      intro r hr
      simp [hpt r hr]

lemma step_preserves (env : Env) (e : Event) (db : DB) (u i : Int)
    (hu : e.user_id = some u) (hi : e.practice_id = some i)
    (hc : keyCount u i db.rows = 1) (huniq : uniqOK db.rows = true) :
    keyCount u i (postProgressU env e db).db.rows = 1
    ∧ uniqOK (postProgressU env e db).db.rows = true := by
  by_cases hid : e.progress_practice_id = some 0
  · have hex : ∃ r ∈ db.rows, hasKey u i r = true := by
      have hne : db.rows.filter (hasKey u i) ≠ [] := by
        intro hnil
        rw [keyCount, hnil] at hc
        exact absurd hc (by decide)
      obtain ⟨r, hrm⟩ := List.exists_mem_of_ne_nil _ hne
      exact ⟨r, (List.mem_filter.mp hrm).1, (List.mem_filter.mp hrm).2⟩
    obtain ⟨r, hrm, hrk⟩ := hex
    have hkeyNew : hasKey u i (⟨db.nextId, e.user_id, e.practice_id,
        e.progress_poin, e.is_active, e.is_passed, env.now⟩ : Row) = true := by
      simp [hasKey, hu, hi]
    have hconf : db.rows.any (fun s => sameKey s ⟨db.nextId, e.user_id,
        e.practice_id, e.progress_poin, e.is_active, e.is_passed, env.now⟩) =
          true :=
      List.any_eq_true.mpr ⟨r, hrm, hasKey_sameKey u i r _ hrk hkeyNew⟩
    have hdb : (postProgressU env e db).db = db := by
      simp [postProgressU, hid, hconf]
    rw [hdb]
    exact ⟨hc, huniq⟩
  · by_cases henv : env.updateErr = true
    · have hdb : (postProgressU env e db).db = db := by
        simp [postProgressU, hid, henv]
      rw [hdb]
      exact ⟨hc, huniq⟩
    · have henv2 : env.updateErr = false := by
        cases hx : env.updateErr
        · rfl
        · exact absurd hx henv
      have hmono : ∀ r, hasKey u i r = true →
          hasKey u i (if matchRow e r then updateRow e env.now r else r) =
            true := by
        intro r hr
        by_cases hm : matchRow e r = true
        · have h1 : r.user_id = some u := by
            simp only [hasKey, Bool.and_eq_true, beq_iff_eq] at hr
            exact hr.1
          simp [hm, updateRow, hasKey, h1, hi]
        · simp only [if_neg hm]
          exact hr
      by_cases hq : uniqOK (db.rows.map fun r =>
          if matchRow e r then updateRow e env.now r else r) = true
      · have hdb : (postProgressU env e db).db.rows = db.rows.map fun r =>
            if matchRow e r then updateRow e env.now r else r := by
          simp [postProgressU, hid, henv2, hq]
        have hge : 1 ≤ keyCount u i (db.rows.map fun r =>
            if matchRow e r then updateRow e env.now r else r) := by
          have hlen := filter_length_le_map
            (fun r => if matchRow e r then updateRow e env.now r else r)
            (hasKey u i) hmono db.rows
          rw [keyCount] at hc ⊢
          omega
        have hle := keyCount_le_one_of_uniqOK u i _ hq
        rw [hdb]
        exact ⟨le_antisymm hle hge, hq⟩
      · have hq2 : uniqOK (db.rows.map fun r =>
            if matchRow e r then updateRow e env.now r else r) = false := by
          cases hx : uniqOK (db.rows.map fun r =>
            if matchRow e r then updateRow e env.now r else r)
          · rfl
          · exact absurd hx hq
        have hdb : (postProgressU env e db).db = db := by
          simp [postProgressU, hid, henv2, hq2]
        rw [hdb]
        exact ⟨hc, huniq⟩

lemma runU_cons (p : Env × Event) (ps : List (Env × Event)) (db : DB) :
    runU (p :: ps) db = runU ps (postProgressU p.1 p.2 db).db := rfl

lemma runU_preserves (u i : Int) :
    ∀ (calls : List (Env × Event)) (db : DB),
      (∀ p ∈ calls, p.2.user_id = some u ∧ p.2.practice_id = some i) →
      keyCount u i db.rows = 1 → uniqOK db.rows = true →
      keyCount u i (runU calls db).rows = 1
      ∧ uniqOK (runU calls db).rows = true := by
  intro calls
  induction calls with
  | nil => intro db _ hc hq; exact ⟨hc, hq⟩
  | cons p ps ih =>
    intro db hall hc hq
    obtain ⟨hpu, hpi⟩ := hall p (List.mem_cons_self p ps)
    have hstep := step_preserves p.1 p.2 db u i hpu hpi hc hq
    rw [runU_cons]
    exact ih _ (fun q hq2 => hall q (List.mem_cons_of_mem p hq2)) hstep.1
      hstep.2

/-- Claim C7 (store uniqueness modelled from the spec): starting from any
store satisfying the uniqueness invariant, a sequence of reconcile calls
all carrying the same (user, item) pair whose first call supplies the
sentinel record id `0` leaves exactly one progress record for that pair,
regardless of how many further calls the sequence contains. -/
theorem sequence_single_record (u i : Int) (env0 : Env) (e0 : Event)
    (rest : List (Env × Event)) (db : DB)
    (huniq : uniqOK db.rows = true)
    (h0 : e0.progress_practice_id = some 0)
    (h0u : e0.user_id = some u) (h0i : e0.practice_id = some i)
    (h0ok : env0.insertErr = false)
    (hrest : ∀ p ∈ rest, p.2.user_id = some u ∧ p.2.practice_id = some i) :
    keyCount u i (runU rest (postProgressU env0 e0 db).db).rows = 1 := by
  have h1 := first_insert_count env0 e0 db u i h0 h0u h0i h0ok huniq
  exact (runU_preserves u i rest _ hrest h1.1 h1.2).1

/-- Witness for C7 at a concrete input: a create followed by an update and
a second (rejected) create for user 7, item 3 leaves exactly one record. -/
theorem sequence_single_record_witness :
    keyCount 7 3 (runU
      [(⟨2, false, false, false⟩, ⟨some 1, some 7, some 3, some 1, 40, true, true⟩),
       (⟨3, false, false, false⟩, ⟨some 0, some 7, some 3, some 1, 50, true, true⟩)]
      (postProgressU ⟨1, false, false, false⟩
        ⟨some 0, some 7, some 3, some 1, 10, true, false⟩ ⟨[], 1⟩).db).rows = 1 :=
  sequence_single_record 7 3 ⟨1, false, false, false⟩
    ⟨some 0, some 7, some 3, some 1, 10, true, false⟩
    [(⟨2, false, false, false⟩, ⟨some 1, some 7, some 3, some 1, 40, true, true⟩),
     (⟨3, false, false, false⟩, ⟨some 0, some 7, some 3, some 1, 50, true, true⟩)]
    ⟨[], 1⟩ rfl rfl rfl rfl rfl (by decide)

lemma double_update_views (e : Event) (t1 t2 : Nat) :
    ∀ l : List Row,
      ((((l.map fun r => if matchRow e r then updateRow e t1 r else r).map
          fun r => if matchRow e r then updateRow e t2 r else r).filter
            (matchRow e)).map Row.view) =
      (((l.map fun r => if matchRow e r then updateRow e t1 r else r).filter
          (matchRow e)).map Row.view) := by
  intro l
  induction l with
  | nil => rfl
  | cons r t ih =>
    simp only [List.map_cons]
    by_cases hm : matchRow e r = true
    · have hm1 : matchRow e (updateRow e t1 r) = true := by
        rw [matchRow_updateRow]; exact hm
      have hm2 : matchRow e (updateRow e t2 (updateRow e t1 r)) = true := by
        rw [matchRow_updateRow, matchRow_updateRow]; exact hm
      rw [if_pos hm, if_pos hm1]
      simp only [List.filter_cons, hm1, hm2, if_pos]
      simp only [List.map_cons]
      rw [ih]
      congr 1
    · have hmf : matchRow e r = false := by
        cases hx : matchRow e r
        · rfl
        · exact absurd hx hm
      rw [if_neg hm, if_neg hm]
      simp only [List.filter_cons, hmf]
      exact ih

/-- Counterexample to claim C8: two consecutive update calls carrying the
same record id (55), the same user id (7) and identical pointValue,
isActive and isCompleted values, but different practice ids, return records
that differ in a field other than the timestamp (the returned projection
does not even contain `updated_at`; the differing field is `practice_id`). -/
theorem repeat_update_differs_cex :
    (postProgress ⟨1, false, false, false⟩
        ⟨some 55, some 7, some 4, some 1, 10, true, false⟩
        ⟨[⟨55, some 7, some 3, 10, true, false, 0⟩], 56⟩).resp =
      Resp.ok [⟨55, some 7, some 4, 10, true, false⟩]
    ∧ (postProgress ⟨2, false, false, false⟩
        ⟨some 55, some 7, some 5, some 1, 10, true, false⟩
        (postProgress ⟨1, false, false, false⟩
          ⟨some 55, some 7, some 4, some 1, 10, true, false⟩
          ⟨[⟨55, some 7, some 3, 10, true, false, 0⟩], 56⟩).db).resp =
      Resp.ok [⟨55, some 7, some 5, 10, true, false⟩]
    ∧ (⟨55, some 7, some 4, 10, true, false⟩ : RowView) ≠
        ⟨55, some 7, some 5, 10, true, false⟩ := by
  refine ⟨rfl, rfl, by decide⟩

/-- Claim C8 as amended: running the same update event twice in a row —
identical record id, user id, practice id, pointValue, isActive and
isCompleted — yields identical responses, whatever the two wall-clock
timestamps are: the returned projection contains no timestamp at all. -/
theorem repeat_update_same_view (env1 env2 : Env) (e : Event) (db : DB)
    (h : e.progress_practice_id ≠ some 0)
    (h1 : env1.updateErr = false) (h2 : env2.updateErr = false) :
    (postProgress env2 e (postProgress env1 e db).db).resp =
      (postProgress env1 e db).resp := by
  have hdb1 : (postProgress env1 e db).db.rows =
      db.rows.map fun r => if matchRow e r then updateRow e env1.now r
        else r := by
    simp [postProgress, h, h1]
  have hr1 : (postProgress env1 e db).resp = Resp.ok
      (((db.rows.map fun r => if matchRow e r then updateRow e env1.now r
          else r).filter (matchRow e)).map Row.view) := by
    simp [postProgress, h, h1]
  have hr2 : (postProgress env2 e (postProgress env1 e db).db).resp = Resp.ok
      ((((postProgress env1 e db).db.rows.map fun r =>
          if matchRow e r then updateRow e env2.now r else r).filter
            (matchRow e)).map Row.view) := by
    simp [postProgress, h, h2]
  rw [hr1, hr2, hdb1, double_update_views]

/-- Witness for the amended C8 at a concrete input with two different
timestamps. -/
theorem repeat_update_same_view_witness :
    (postProgress ⟨9, false, false, false⟩
        ⟨some 55, some 7, some 3, some 1, 40, true, true⟩
        (postProgress ⟨4, false, false, false⟩
          ⟨some 55, some 7, some 3, some 1, 40, true, true⟩
          ⟨[⟨55, some 7, some 3, 10, true, false, 0⟩], 56⟩).db).resp =
      (postProgress ⟨4, false, false, false⟩
        ⟨some 55, some 7, some 3, some 1, 40, true, true⟩
        ⟨[⟨55, some 7, some 3, 10, true, false, 0⟩], 56⟩).resp :=
  repeat_update_same_view ⟨4, false, false, false⟩ ⟨9, false, false, false⟩
    ⟨some 55, some 7, some 3, some 1, 40, true, true⟩
    ⟨[⟨55, some 7, some 3, 10, true, false, 0⟩], 56⟩ (by decide) rfl rfl

/-- Counterexample to claim C9: a successful update-path call whose event
carries practice id 5 overwrites the stored row's practice id (the itemId),
which was 3 before the call — the itemId does not retain its value. -/
theorem update_overwrites_item_cex :
    ((postProgress ⟨5, false, false, false⟩
        ⟨some 55, some 7, some 5, some 1, 40, true, true⟩
        ⟨[⟨55, some 7, some 3, 10, true, false, 0⟩], 56⟩).db.rows.map
      Row.practice_id) = [some 5]
    ∧ (([⟨55, some 7, some 3, 10, true, false, 0⟩] : List Row).map
        Row.practice_id) = [some 3] :=
  ⟨rfl, rfl⟩

/-- Claim C9 as amended: a successful update writes pointValue, isActive,
isCompleted, the timestamp and also the practice id (itemId) of every
matched row; the record id and the user id retain their previous values,
and unmatched rows are entirely unchanged. -/
theorem update_preserves_id_and_user (env : Env) (e : Event) (db : DB)
    (h : e.progress_practice_id ≠ some 0) (hok : env.updateErr = false) :
    ∀ n : Nat, ∀ r, db.rows[n]? = some r →
      ∃ s, (postProgress env e db).db.rows[n]? = some s
        ∧ s.progress_practice_id = r.progress_practice_id
        ∧ s.user_id = r.user_id
        ∧ (matchRow e r = false → s = r)
        ∧ (matchRow e r = true → s.progress_poin = e.progress_poin
            ∧ s.is_active = e.is_active ∧ s.is_passed = e.is_passed
            ∧ s.practice_id = e.practice_id ∧ s.updated_at = env.now) := by
  intro n r hr
  have hrows : (postProgress env e db).db.rows =
      db.rows.map fun x => if matchRow e x then updateRow e env.now x
        else x := by
    simp [postProgress, h, hok]
  refine ⟨if matchRow e r then updateRow e env.now r else r, ?_, ?_, ?_, ?_, ?_⟩
  · rw [hrows, List.getElem?_map, hr]
    rfl
  · by_cases hm : matchRow e r = true <;> simp [hm, updateRow]
  · by_cases hm : matchRow e r = true <;> simp [hm, updateRow]
  · intro hm
    simp [hm]
  · intro hm
    simp [hm, updateRow]

/-- Witness for the amended C9 at a concrete input. -/
theorem update_preserves_id_and_user_witness :
    ∃ s, (postProgress ⟨5, false, false, false⟩
          ⟨some 55, some 7, some 5, some 1, 40, true, true⟩
          ⟨[⟨55, some 7, some 3, 10, true, false, 0⟩], 56⟩).db.rows[0]? =
        some s
      ∧ s.progress_practice_id =
          (⟨55, some 7, some 3, 10, true, false, 0⟩ : Row).progress_practice_id
      ∧ s.user_id = (⟨55, some 7, some 3, 10, true, false, 0⟩ : Row).user_id := by
  obtain ⟨s, hs1, hs2, hs3, _, _⟩ :=
    update_preserves_id_and_user ⟨5, false, false, false⟩
      ⟨some 55, some 7, some 5, some 1, 40, true, true⟩
      ⟨[⟨55, some 7, some 3, 10, true, false, 0⟩], 56⟩ (by decide) rfl 0
      ⟨55, some 7, some 3, 10, true, false, 0⟩ rfl
  exact ⟨s, hs1, hs2, hs3⟩

end LingoPal

namespace LingoPal.Chat

lemma runChat_sent (b : ChatBody) (post : List ChatBody) :
    ∀ (pre : List ChatBody) (hist : List Msg),
      (runChat hist (pre ++ b :: post)).2[pre.length]? =
        some (systemPrompts ++ hist ++ (pre.map ChatBody.toMessages).flatten
          ++ b.toMessages) := by
  intro pre
  induction pre with
  | nil =>
    intro hist
    show ((chatStep hist b).2 :: (runChat (chatStep hist b).1 post).2)[0]? = _
    simp [chatStep, completionInput, List.append_assoc]
  | cons p t ih =>
    intro hist
    show ((chatStep hist p).2 ::
      (runChat (hist ++ p.toMessages) (t ++ b :: post)).2)[t.length + 1]? = _
    rw [List.getElem?_cons_succ, ih]
    simp [List.append_assoc]

/-- Claim C10: the chat-completion endpoint accumulates every request's
messages in the single module-level `conversationHistory`, so the input
sent to the model for the (n+1)-st request is the four system prompts
followed by every message of all earlier requests and then the current
one; consequently two runs with identical request bodies but different
prior histories send different inputs to the model. -/
theorem chat_history_shared :
    (∀ (pre : List ChatBody) (b : ChatBody) (post : List ChatBody),
        (runChat [] (pre ++ b :: post)).2[pre.length]? =
          some (systemPrompts ++ (pre.map ChatBody.toMessages).flatten
            ++ b.toMessages))
    ∧ (∀ (g1 g2 : List Msg) (b : ChatBody), g1 ≠ g2 →
        (chatStep g1 b).2 ≠ (chatStep g2 b).2) := by
  constructor
  · intro pre b post
    have h := runChat_sent b post pre []
    simpa using h
  · intro g1 g2 b hne hcontra
    apply hne
    simp only [chatStep, completionInput] at hcontra
    exact List.append_cancel_right (List.append_cancel_left hcontra)

/-- Witness for C10 at concrete inputs: the second request's model input
contains the first request's message, and two different prior histories
yield different model inputs for the same body. -/
theorem chat_history_shared_witness :
    (runChat [] ([ChatBody.arr [⟨"user", "hi"⟩]] ++
        ChatBody.arr [⟨"user", "bye"⟩] :: [])).2[1]? =
      some (systemPrompts ++
        ([ChatBody.arr [⟨"user", "hi"⟩]].map ChatBody.toMessages).flatten ++
        (ChatBody.arr [⟨"user", "bye"⟩]).toMessages)
    ∧ (chatStep [⟨"user", "hi"⟩] (ChatBody.arr [])).2 ≠
        (chatStep [] (ChatBody.arr [])).2 :=
  ⟨chat_history_shared.1 [ChatBody.arr [⟨"user", "hi"⟩]]
      (ChatBody.arr [⟨"user", "bye"⟩]) [],
   chat_history_shared.2 [⟨"user", "hi"⟩] [] (ChatBody.arr []) (by decide)⟩

end LingoPal.Chat
